import Mathlib

/-!
Shallow embedding of the MassNet-wallet core subsystems specified in
`spec.md`:

* `txscript` — standard-script classification, construction and analysis
  (`src/txscript/standard.go`);
* `memdb`    — the in-memory ledger store (`src/database/memdb/memdb.go`);
* `netsync`  — per-peer ban scoring and the peer-set coordinator
  (`src/netsync/peer.go`).

Byte sequences are modelled as `List Nat` (each entry a byte value),
Go maps as association lists with Go's assign-or-append update, Go
slices as `List`, and Go's fallible functions as `Except`.  A Go
runtime panic (out-of-range slice index, nil-pointer dereference) is
modelled by a distinguished error constructor, clearly marked at each
use site: it is a fault, not a returned error.

Functions of this repository that the claims need but that are not part
of the extracted sources (the opcode parser, the script builder, the
sig-op counters, the address decoders, the dynamic ban score) are
modelled from the spec; each such definition carries a doc comment
starting with `Modelled from the spec:`.
-/

/-- Decidable equality for `Except`, so that the concrete runs below
can be settled by `decide`. -/
instance decEqExcept {ε α : Type} [DecidableEq ε] [DecidableEq α] :
    DecidableEq (Except ε α) := fun a b =>
  match a, b with
  | .ok x, .ok y =>
    if h : x = y then isTrue (by rw [h])
    else isFalse (fun hh => h (by cases hh; rfl))
  | .error x, .error y =>
    if h : x = y then isTrue (by rw [h])
    else isFalse (fun hh => h (by cases hh; rfl))
  | .ok _, .error _ => isFalse (by intro h; cases h)
  | .error _, .ok _ => isFalse (by intro h; cases h)

namespace txscript

/-! Opcode byte values (spec section 6, Bitcoin-style script) -/

def OP_0 : Nat := 0x00
def OP_DATA_1 : Nat := 0x01
def OP_DATA_8 : Nat := 0x08
def OP_DATA_20 : Nat := 0x14
def OP_DATA_32 : Nat := 0x20
def OP_DATA_33 : Nat := 0x21
def OP_DATA_65 : Nat := 0x41
def OP_PUSHDATA1 : Nat := 0x4c
def OP_PUSHDATA2 : Nat := 0x4d
def OP_PUSHDATA4 : Nat := 0x4e
def OP_1NEGATE : Nat := 0x4f
def OP_1 : Nat := 0x51
def OP_16 : Nat := 0x60
def OP_RETURN : Nat := 0x6a
def OP_DROP : Nat := 0x75
def OP_EQUAL : Nat := 0x87
def OP_HASH160 : Nat := 0xa9
def OP_CHECKSIG : Nat := 0xac
def OP_CHECKSIGVERIFY : Nat := 0xad
def OP_CHECKMULTISIG : Nat := 0xae
def OP_CHECKMULTISIGVERIFY : Nat := 0xaf
def OP_CHECKSEQUENCEVERIFY : Nat := 0xb2

/-- Source: `MaxDataCarrierSize` (spec section 6: the source uses 80). -/
def MaxDataCarrierSize : Nat := 80

/-- Source: `MaxPubKeysPerMultiSig`: sig-op weight charged for a
`OP_CHECKMULTISIG` whose key count is unknown. -/
def MaxPubKeysPerMultiSig : Nat := 20

/-- A parsed opcode: the opcode byte plus the push payload.  `data` is
`none` for single-byte opcodes (including `OP_0` and `OP_1`..`OP_16`,
whose payload is nil in the source), mirroring Go's nil slice. -/
structure parsedOpcode where
  value : Nat
  data : Option (List Nat)
deriving DecidableEq, Repr

/-- Default used when indexing a pop list out of range (Go would
panic; the predicates below only index in range). -/
def defaultPop : parsedOpcode := ⟨0, none⟩

/-- Source: `len(pop.data)` in Go: a nil slice has length 0. -/
def popDataLen (p : parsedOpcode) : Nat := (p.data.getD []).length

/-- Modelled from the spec: the opcode parser (`parseScript` lives in
the repository's `txscript/script.go`, not among the extracted files).
Decodes a byte stream into parsed opcodes: bytes `0x01`..`0x4b` are
direct pushes of that many payload bytes, `OP_PUSHDATA1/2/4` read a
little-endian length first, every other byte is a single opcode with a
nil payload.  A truncated push is a parse error.  The structural
`fuel` argument bounds the number of opcodes; each opcode consumes at
least one byte, so `parseScript` passes the script length. -/
def readPushData1 (rest : List Nat) : Option (List Nat × List Nat) :=
  match rest with
  | [] => none
  | n :: rest2 =>
    if n ≤ rest2.length then some (rest2.take n, rest2.drop n) else none

def readPushData2 (rest : List Nat) : Option (List Nat × List Nat) :=
  match rest with
  | n0 :: n1 :: rest2 =>
    if n0 + 256 * n1 ≤ rest2.length then
      some (rest2.take (n0 + 256 * n1), rest2.drop (n0 + 256 * n1))
    else none
  | _ => none

def readPushData4 (rest : List Nat) : Option (List Nat × List Nat) :=
  match rest with
  | n0 :: n1 :: n2 :: n3 :: rest2 =>
    if n0 + 256 * n1 + 65536 * n2 + 16777216 * n3 ≤ rest2.length then
      some (rest2.take (n0 + 256 * n1 + 65536 * n2 + 16777216 * n3),
        rest2.drop (n0 + 256 * n1 + 65536 * n2 + 16777216 * n3))
    else none
  | _ => none

def parseOps : Nat → List Nat → Except Unit (List parsedOpcode)
  | _, [] => .ok []
  | 0, _ :: _ => .error ()  -- unreachable when fuel ≥ script length
  | fuel + 1, b :: rest =>
    if 1 ≤ b ∧ b ≤ 75 then
      if b ≤ rest.length then
        (parseOps fuel (rest.drop b)).map
          (fun tl => ⟨b, some (rest.take b)⟩ :: tl)
      else .error ()
    else if b = OP_PUSHDATA1 then
      match readPushData1 rest with
      | none => .error ()
      | some (d, remainder) =>
        (parseOps fuel remainder).map (fun tl => ⟨b, some d⟩ :: tl)
    else if b = OP_PUSHDATA2 then
      match readPushData2 rest with
      | none => .error ()
      | some (d, remainder) =>
        (parseOps fuel remainder).map (fun tl => ⟨b, some d⟩ :: tl)
    else if b = OP_PUSHDATA4 then
      match readPushData4 rest with
      | none => .error ()
      | some (d, remainder) =>
        (parseOps fuel remainder).map (fun tl => ⟨b, some d⟩ :: tl)
    else
      (parseOps fuel rest).map (fun tl => ⟨b, none⟩ :: tl)

/-- The opcode parser at its canonical fuel. -/
def parseScript (script : List Nat) : Except Unit (List parsedOpcode) :=
  parseOps script.length script

/-- Modelled from the spec: `isSmallInt` (design note in spec section 9:
`OP_0` is numeric 0, `OP_1`..`OP_16` are 1..16). -/
def isSmallInt (op : Nat) : Bool :=
  op = OP_0 ∨ (OP_1 ≤ op ∧ op ≤ OP_16)

/-- Modelled from the spec: `asSmallInt` returns the numeric value an
`OP_0`/`OP_1`..`OP_16` opcode pushes. -/
def asSmallInt (op : Nat) : Nat :=
  if op = OP_0 then 0 else op - (OP_1 - 1)

/-- Source: `isMultiSig` (src/txscript/standard.go:30-60). -/
def isMultiSig (pops : List parsedOpcode) : Bool :=
  let l := pops.length
  4 ≤ l
  ∧ isSmallInt (pops.getD 0 defaultPop).value
  ∧ isSmallInt (pops.getD (l - 2) defaultPop).value
  ∧ (pops.getD (l - 1) defaultPop).value = OP_CHECKMULTISIG
  ∧ l - 2 - 1 = asSmallInt (pops.getD (l - 2) defaultPop).value
  ∧ ((pops.drop 1).take (l - 3)).all
      (fun pop => popDataLen pop = 33 ∨ popDataLen pop = 65)

/-- Source: `isNullData` (src/txscript/standard.go:64-77). -/
def isNullData (pops : List parsedOpcode) : Bool :=
  (pops.length = 1 ∧ (pops.getD 0 defaultPop).value = OP_RETURN)
  ∨ (pops.length = 2
      ∧ (pops.getD 0 defaultPop).value = OP_RETURN
      ∧ (pops.getD 1 defaultPop).value ≤ OP_PUSHDATA4
      ∧ popDataLen (pops.getD 1 defaultPop) ≤ MaxDataCarrierSize)

/-- Modelled from the spec: `isWitnessScriptHash` (spec 4.2: pattern
`OP_0 <32-byte push>`; the canonical 32-byte push is `OP_DATA_32`). -/
def isWitnessScriptHash (pops : List parsedOpcode) : Bool :=
  pops.length = 2
  ∧ (pops.getD 0 defaultPop).value = OP_0
  ∧ (pops.getD 1 defaultPop).value = OP_DATA_32

/-- Modelled from the spec: `isLocktimeScriptHash` (spec 4.2: pattern
`<8-byte push> OP_CHECKSEQUENCEVERIFY OP_DROP OP_HASH160 <20-byte push>
OP_EQUAL`). -/
def isLocktimeScriptHash (pops : List parsedOpcode) : Bool :=
  pops.length = 6
  ∧ (pops.getD 0 defaultPop).value = OP_DATA_8
  ∧ (pops.getD 1 defaultPop).value = OP_CHECKSEQUENCEVERIFY
  ∧ (pops.getD 2 defaultPop).value = OP_DROP
  ∧ (pops.getD 3 defaultPop).value = OP_HASH160
  ∧ (pops.getD 4 defaultPop).value = OP_DATA_20
  ∧ (pops.getD 5 defaultPop).value = OP_EQUAL

/-- The closed script-class enumeration (spec section 3). -/
inductive ScriptClass where
  | NonStandardTy
  | MultiSigTy
  | NullDataTy
  | WitnessV0ScriptHashTy
  | LocktimeScriptHashTy
deriving DecidableEq, Repr

export ScriptClass (NonStandardTy MultiSigTy NullDataTy
  WitnessV0ScriptHashTy LocktimeScriptHashTy)

/-- Source: `typeOfScript` (src/txscript/standard.go:81-92): first matching
predicate wins, in the order multisig, null-data, witness-script-hash,
locktime-script-hash. -/
def typeOfScript (pops : List parsedOpcode) : ScriptClass :=
  if isMultiSig pops then MultiSigTy
  else if isNullData pops then NullDataTy
  else if isWitnessScriptHash pops then WitnessV0ScriptHashTy
  else if isLocktimeScriptHash pops then LocktimeScriptHashTy
  else NonStandardTy

/-- Source: `GetScriptClass` (src/txscript/standard.go:97-103):
`NonStandardTy` when the script does not parse. -/
def GetScriptClass (script : List Nat) : ScriptClass :=
  match parseScript script with
  | .error _ => NonStandardTy
  | .ok pops => typeOfScript pops

/-! Script builder (modelled from the spec, section 4.3 / 6) -/

inductive ScriptError where
  | stackUnderflow      -- ErrStackUnderflow
  | badNumRequired      -- ErrBadNumRequired
  | parseFailure        -- a parse error surfaced to the caller
  | indexOutOfRange     -- models a Go runtime panic (slice index out of range)
  | nilPointerDereference -- models a Go runtime panic (nil receiver)
deriving DecidableEq, Repr

/-- Modelled from the spec: little-endian base-256 digits of a natural
number (no digits for zero), used by the script-number encoding. -/
def natLEBytes (n : Nat) : List Nat :=
  if n = 0 then [] else n % 256 :: natLEBytes (n / 256)
termination_by n
decreasing_by exact Nat.div_lt_self (Nat.pos_of_ne_zero (by assumption)) (by norm_num)

/-- Modelled from the spec: the minimal little-endian
sign-and-magnitude script-number encoding used by the builder for
integers outside the small-int range. -/
def scriptNumBytes (v : Int) : List Nat :=
  if v = 0 then []
  else
    let mag := natLEBytes v.natAbs
    match mag.getLast? with
    | none => []
    | some last =>
      if 0x80 ≤ last then mag ++ [if v < 0 then 0x80 else 0]
      else if v < 0 then mag.dropLast ++ [last + 0x80]
      else mag

/-- Modelled from the spec: `ScriptBuilder.AddData`'s canonical push
encoding — small ints become `OP_0`/`OP_1`..`OP_16`/`OP_1NEGATE`,
short payloads a direct push, longer ones the smallest `OP_PUSHDATA#`. -/
def canonicalDataPush (data : List Nat) : List Nat :=
  let b0 := data.getD 0 0
  if data.length = 0 ∨ (data.length = 1 ∧ b0 = 0) then [OP_0]
  else if data.length = 1 ∧ b0 ≤ 16 then [OP_1 - 1 + b0]
  else if data.length = 1 ∧ b0 = 0x81 then [OP_1NEGATE]
  else if data.length < OP_PUSHDATA1 then (OP_DATA_1 - 1 + data.length) :: data
  else if data.length ≤ 0xff then OP_PUSHDATA1 :: data.length :: data
  else if data.length ≤ 0xffff then
    OP_PUSHDATA2 :: data.length % 256 :: data.length / 256 :: data
  else
    OP_PUSHDATA4 :: data.length % 256 :: data.length / 256 % 256 ::
      data.length / 65536 % 256 :: data.length / 16777216 % 256 :: data

/-- Modelled from the spec: `ScriptBuilder.AddInt64`'s encoding — zero
becomes `OP_0`, −1 and 1..16 the corresponding single opcode, anything
else a canonical data push of the script-number bytes. -/
def addInt64Push (v : Int) : List Nat :=
  if v = 0 then [OP_0]
  else if v = -1 ∨ (1 ≤ v ∧ v ≤ 16) then [OP_1 - 1 + v.toNat]
  else canonicalDataPush (scriptNumBytes v)

/-- Source: `payToWitnessScriptHashScript` (src/txscript/standard.go:268-270):
`OP_0` followed by a canonical push of the hash.  The builder's
size-limit error cannot trigger on these inputs, so the model never
fails. -/
def payToWitnessScriptHashScript (scriptHash : List Nat) :
    Except ScriptError (List Nat) :=
  .ok (OP_0 :: canonicalDataPush scriptHash)

/-- Source: `payToLocktimeScriptHashScript` (src/txscript/standard.go:279-281). -/
def payToLocktimeScriptHashScript (scriptHash locktime : List Nat) :
    Except ScriptError (List Nat) :=
  .ok (canonicalDataPush locktime ++ OP_CHECKSEQUENCEVERIFY :: OP_DROP ::
    OP_HASH160 :: canonicalDataPush scriptHash ++ [OP_EQUAL])

/-- A pay-to-pubkey address: for the purposes of `MultiSigScript` only
its `ScriptAddress()` bytes (the serialized public key) matter. -/
structure AddressPubKey where
  scriptAddress : List Nat
deriving DecidableEq, Repr

/-- The push opcodes `MultiSigScript` emits for its key list. -/
def multiSigKeyPushes (pubkeys : List AddressPubKey) : List Nat :=
  pubkeys.foldr (fun key acc => canonicalDataPush key.scriptAddress ++ acc) []

/-- The parsed opcodes the key section of a multisig script decodes
to: one direct push per key. -/
def multiSigKeyPops (pubkeys : List AddressPubKey) : List parsedOpcode :=
  pubkeys.map (fun key => ⟨key.scriptAddress.length, some key.scriptAddress⟩)

/-- The single opcode byte `AddInt64` emits for a value in 0..16. -/
def smallIntByte (v : Int) : Nat :=
  if v = 0 then OP_0 else OP_1 - 1 + v.toNat

/-- Source: `MultiSigScript` (src/txscript/standard.go:350-363):
`ErrBadNumRequired` when fewer keys than required signatures, else
`push(nrequired) ∥ push(pk₁) ∥ … ∥ push(pkₘ) ∥ push(m) ∥
OP_CHECKMULTISIG`. -/
def MultiSigScript (pubkeys : List AddressPubKey) (nrequired : Int) :
    Except ScriptError (List Nat) :=
  if (pubkeys.length : Int) < nrequired then .error .badNumRequired
  else
    .ok (addInt64Push nrequired ++ multiSigKeyPushes pubkeys ++
      addInt64Push (pubkeys.length : Int) ++ [OP_CHECKMULTISIG])

/-- Source: `CalcMultiSigStats` (src/txscript/standard.go:244-264): returns
`(numPubKeys, numSigs)`; `ErrStackUnderflow` when fewer than 4 parsed
opcodes. -/
def CalcMultiSigStats (script : List Nat) :
    Except ScriptError (Nat × Nat) :=
  match parseScript script with
  | .error _ => .error .parseFailure
  | .ok pops =>
    if pops.length < 4 then .error .stackUnderflow
    else
      .ok (asSmallInt (pops.getD (pops.length - 2) defaultPop).value,
           asSmallInt (pops.getD 0 defaultPop).value)

/-- Source: `PushedData` (src/txscript/standard.go:367-382): collects every
push payload; an `OP_0` contributes a nil entry (modelled `[]`), the
single-opcode small-int pushes `OP_1`..`OP_16` contribute nothing. -/
def PushedData (script : List Nat) :
    Except ScriptError (List (List Nat)) :=
  match parseScript script with
  | .error _ => .error .parseFailure
  | .ok pops =>
    .ok (pops.foldl
      (fun acc pop =>
        match pop.data with
        | some d => acc ++ [d]
        | none => if pop.value = OP_0 then acc ++ [[]] else acc)
      [])

/-! Script info (src/txscript/standard.go:133-242) -/

/-- Source: `expectedInputs` (src/txscript/standard.go:138-160).  For multisig
it reads the leading small-int push; `typeOfScript` guarantees the list
is non-empty there.  Unknown classes give −1. -/
def expectedInputs (pops : List parsedOpcode) (class_ : ScriptClass) : Int :=
  match class_ with
  | WitnessV0ScriptHashTy => 1
  | LocktimeScriptHashTy => 1
  | MultiSigTy => (asSmallInt (pops.getD 0 defaultPop).value : Int)
  | _ => -1

/-- Modelled from the spec: `getSigOpCount` (spec 4.4 — `CHECKSIG`
counts 1; `CHECKMULTISIG` counts the preceding small-int push when
`precise` and one is present, else `MaxPubKeysPerMultiSig`).  The
accumulator carries the previous opcode byte. -/
def sigOpsAux (precise : Bool) : Option Nat → List parsedOpcode → Nat
  | _, [] => 0
  | prev, pop :: tl =>
    (if pop.value = OP_CHECKSIG ∨ pop.value = OP_CHECKSIGVERIFY then 1
     else if pop.value = OP_CHECKMULTISIG ∨ pop.value = OP_CHECKMULTISIGVERIFY then
       match prev with
       | some pv =>
         if precise ∧ OP_1 ≤ pv ∧ pv ≤ OP_16 then asSmallInt pv
         else MaxPubKeysPerMultiSig
       | none => MaxPubKeysPerMultiSig
     else 0)
    + sigOpsAux precise (some pop.value) tl

/-- Modelled from the spec: static sig-op count over parsed opcodes. -/
def getSigOpCount (pops : List parsedOpcode) (precise : Bool) : Nat :=
  sigOpsAux precise none pops

/-- Modelled from the spec: the delegated witness sig-op counter —
counts precise sig-ops in the redeem script (the last witness
element); an unparseable redeem script counts zero. -/
def GetWitnessSigOpCount (witness : List (List Nat)) : Nat :=
  match parseScript (witness.getLastD []) with
  | .ok pops => getSigOpCount pops true
  | .error _ => 0

/-- Modelled from the spec: the delegated locktime-script sig-op
counter, likewise counting precise sig-ops in the redeem script. -/
def GetLocktimeScriptSigOpCount (witness : List (List Nat)) : Nat :=
  match parseScript (witness.getLastD []) with
  | .ok pops => getSigOpCount pops true
  | .error _ => 0

/-- Source: `ScriptInfo` (src/txscript/standard.go:164-179). -/
structure ScriptInfo where
  pkScriptClass : ScriptClass
  numInputs : Int
  expectedInputs : Int
  sigOps : Nat
deriving DecidableEq, Repr

/-- Source: `CalcScriptInfo` (src/txscript/standard.go:185-242).  The source
reads `witness[len(witness)-1]` and `witness[0]` without a bounds
check; on an empty witness that is a Go runtime panic, modelled as
`.error .indexOutOfRange`. -/
def CalcScriptInfo (pkScript : List Nat) (witness : List (List Nat)) :
    Except ScriptError ScriptInfo :=
  match parseScript pkScript with
  | .error _ => .error .parseFailure
  | .ok pkPops =>
    let class_ := typeOfScript pkPops
    let ei := expectedInputs pkPops class_
    match witness.getLast? with
    | none => .error .indexOutOfRange  -- Go panic: witness[len(witness)-1] on empty witness
    | some witnessScript =>
      let pops := match parseScript witnessScript with
        | .ok p => p
        | .error _ => []
      match witness.head? with
      | none => .error .indexOutOfRange  -- unreachable: the witness is non-empty here
      | some witnesssig =>
        let popsigs := match parseScript witnesssig with
          | .ok p => p
          | .error _ => []
        if class_ = WitnessV0ScriptHashTy then
          let shInputs := expectedInputs pops (typeOfScript pops)
          .ok { pkScriptClass := class_
                expectedInputs := if shInputs = -1 then -1 else ei + shInputs
                sigOps := GetWitnessSigOpCount witness
                numInputs := (popsigs.length : Int) + 1 }
        else if class_ = LocktimeScriptHashTy then
          let shInputs := expectedInputs pops (typeOfScript pops)
          .ok { pkScriptClass := class_
                expectedInputs := if shInputs = -1 then -1 else ei + shInputs
                sigOps := GetLocktimeScriptSigOpCount witness
                numInputs := (popsigs.length : Int) + 1 }
        else
          .ok { pkScriptClass := class_
                expectedInputs := ei
                sigOps := getSigOpCount pkPops true
                numInputs := (popsigs.length : Int) + (pops.length : Int) }

/-! Address extraction (src/txscript/standard.go:388-453) -/

/-- The address variants the extractor constructs. -/
inductive Address where
  | witnessScriptHash (hash : List Nat)
  | locktimeScriptHash (hash : List Nat)
  | pubKey (serialized : List Nat)
deriving DecidableEq, Repr

/-- Modelled from the spec: `massutil.NewAddressWitnessScriptHash`
requires a 32-byte program. -/
def NewAddressWitnessScriptHash (bytes : List Nat) :
    Except Unit Address :=
  if bytes.length = 32 then .ok (.witnessScriptHash bytes) else .error ()

/-- Modelled from the spec: `massutil.NewAddressLocktimeScriptHash`
requires a 20-byte hash. -/
def NewAddressLocktimeScriptHash (bytes : List Nat) :
    Except Unit Address :=
  if bytes.length = 20 then .ok (.locktimeScriptHash bytes) else .error ()

/-- Modelled from the spec: `massutil.NewAddressPubKey` decodes a
serialized secp256k1 public key and fails on an invalid encoding; the
model checks the serialization format (33 bytes with prefix 2 or 3, or
65 bytes with prefix 4).  On failure the Go function returns a nil
address. -/
def NewAddressPubKey (bytes : List Nat) : Except Unit Address :=
  if (bytes.length = 33 ∧ (bytes.getD 0 0 = 2 ∨ bytes.getD 0 0 = 3))
      ∨ (bytes.length = 65 ∧ bytes.getD 0 0 = 4) then
    .ok (.pubKey bytes)
  else .error ()

/-- The multisig key loop of `ExtractPkScriptAddrs`
(src/txscript/standard.go:432-441), reading pushes `i+1` while
`remaining` counts the keys still to visit (the caller starts it at
`numPubKeys`).  The source calls `addr.PubKey()` on the result of
`NewAddressPubKey` BEFORE checking its error; when construction fails
the address is nil and that call is a nil-pointer dereference,
modelled as `.error .nilPointerDereference`. -/
def extractMultiSigAddrs (pops : List parsedOpcode) :
    Nat → Nat → List Address → List (List Nat) →
    Except ScriptError (List Address × List (List Nat))
  | _, 0, addrs, pks => .ok (addrs, pks)
  | i, remaining + 1, addrs, pks =>
    match NewAddressPubKey ((pops.getD (i + 1) defaultPop).data.getD []) with
    | .error _ => .error .nilPointerDereference  -- Go panic: addr.PubKey() on nil addr
    | .ok addr =>
      let pkBytes := (pops.getD (i + 1) defaultPop).data.getD []
      extractMultiSigAddrs pops (i + 1) remaining
        (addrs ++ [addr]) (pks ++ [pkBytes])

/-- Source: `ExtractPkScriptAddrs` (src/txscript/standard.go:388-453), with
the chain parameters abstracted away (they only influence the address
rendering, not the control flow modelled here). -/
def ExtractPkScriptAddrs (pkScript : List Nat) :
    Except ScriptError (ScriptClass × List Address × List (List Nat) × Nat) :=
  match parseScript pkScript with
  | .error _ => .error .parseFailure
  | .ok pops =>
    let scriptClass := typeOfScript pops
    match scriptClass with
    | WitnessV0ScriptHashTy =>
      let addrs := match NewAddressWitnessScriptHash
          ((pops.getD 1 defaultPop).data.getD []) with
        | .ok addr => [addr]
        | .error _ => []
      .ok (scriptClass, addrs, [], 1)
    | LocktimeScriptHashTy =>
      let addrs := match NewAddressLocktimeScriptHash
          ((pops.getD 4 defaultPop).data.getD []) with
        | .ok addr => [addr]
        | .error _ => []
      .ok (scriptClass, addrs, [], 1)
    | MultiSigTy =>
      let requiredSigs := asSmallInt (pops.getD 0 defaultPop).value
      let numPubKeys := asSmallInt (pops.getD (pops.length - 2) defaultPop).value
      match extractMultiSigAddrs pops 0 numPubKeys [] [] with
      | .error e => .error e
      | .ok (addrs, pks) => .ok (scriptClass, addrs, pks, requiredSigs)
    | NullDataTy => .ok (scriptClass, [], [], 0)
    | NonStandardTy => .ok (scriptClass, [], [], 0)

end txscript

namespace memdb

/-! Data model (src/database/memdb/memdb.go)

Hashes are opaque 32-byte identifiers compared bytewise; the model
uses `Nat`.  `wire.MsgTx.TxHash()` and `wire.MsgBlock.BlockHash()` are
deterministic content hashes; the model records them as fields
(`txHash`, `blockHash`), so two structurally equal transactions have
equal hashes, as in the source. -/

abbrev Hash := Nat

/-- Source: `zeroHash` (src/database/memdb/memdb.go:27): the zero-valued hash. -/
def zeroHash : Hash := 0

/-- Source: `math.MaxUint32`, the coinbase outpoint index sentinel. -/
def maxUint32 : Nat := 4294967295

structure OutPoint where
  hash : Hash
  index : Nat  -- uint32
deriving DecidableEq, Repr

structure TxIn where
  previousOutPoint : OutPoint
deriving DecidableEq, Repr

structure TxOut where
  pkScript : List Nat
deriving DecidableEq, Repr

structure MsgTx where
  txIn : List TxIn
  txOut : List TxOut
  txHash : Hash
deriving DecidableEq, Repr

structure MsgBlock where
  previous : Hash      -- Header.Previous
  transactions : List MsgTx
  blockHash : Hash
deriving DecidableEq, Repr

/-- Source: `tTxInsertData` (src/database/memdb/memdb.go:32-36). -/
structure tTxInsertData where
  blockHeight : Int
  offset : Nat
  spentBuf : List Bool
deriving DecidableEq, Repr

/-! Go maps are modelled as association lists: assignment updates the
existing entry in place or appends a fresh one; the entry count is the
map's size. -/

def alistLookup {β : Type} (m : List (Hash × β)) (k : Hash) : Option β :=
  match m.find? (fun e => e.1 == k) with
  | some e => some e.2
  | none => none

def alistInsert {β : Type} (m : List (Hash × β)) (k : Hash) (v : β) :
    List (Hash × β) :=
  if (m.find? (fun e => e.1 == k)).isSome then
    m.map (fun e => if e.1 == k then (k, v) else e)
  else m ++ [(k, v)]

def alistErase {β : Type} (m : List (Hash × β)) (k : Hash) :
    List (Hash × β) :=
  m.filter (fun e => !(e.1 == k))

/-- Source: `MemDb` (src/database/memdb/memdb.go:79-85). -/
structure MemDb where
  blocks : List MsgBlock
  blocksBySha : List (Hash × Int)
  txns : List (Hash × List tTxInsertData)
  closed : Bool
deriving DecidableEq, Repr

/-- Source: `newMemDb` (src/database/memdb/memdb.go:761-768). -/
def newMemDb : MemDb :=
  { blocks := [], blocksBySha := [], txns := [], closed := false }

inductive DbError where
  | dbClosed         -- ErrDbClosed
  | prevShaMissing   -- database.ErrPrevShaMissing
  | txShaMissing     -- database.ErrTxShaMissing
  | duplicateSha     -- database.ErrDuplicateSha
  | blockMissing     -- fmt.Errorf: block does not exist (DropAfterBlockBySha)
  | invalidRange     -- fmt.Errorf: bad height range (FetchHeightRange)
  | indexOutOfRange  -- models a Go runtime panic (slice index out of range), not a returned error
deriving DecidableEq, Repr

/-- Source: `isCoinbaseInput` (src/database/memdb/memdb.go:54-61). -/
def isCoinbaseInput (txIn : TxIn) : Bool :=
  txIn.previousOutPoint.index == maxUint32
    && txIn.previousOutPoint.hash == zeroHash

/-- Source: `isCoinBaseTx` (src/database/memdb/memdb.go:629-636).  The source
indexes `TxIn[0]` unconditionally and would panic on a transaction
without inputs; such transactions do not occur in the properties below
and the model returns `false` for them. -/
def isCoinBaseTx (tx : MsgTx) : Bool :=
  match tx.txIn with
  | [] => false
  | txIn :: _ =>
    txIn.previousOutPoint.index == maxUint32
      && txIn.previousOutPoint.hash == zeroHash

/-- Source: `isFullySpent` (src/database/memdb/memdb.go:66-74). -/
def isFullySpent (txD : tTxInsertData) : Bool :=
  txD.spentBuf.all (fun spent => spent)

/-! InsertBlock (src/database/memdb/memdb.go:504-627) -/

abbrev TxnsMap := List (Hash × List tTxInsertData)

/-- The in-flight map `txInFlight` (src/database/memdb/memdb.go:525-529):
for each transaction, assignment `txInFlight[hash] = i`; a duplicated
hash keeps its LAST index. -/
def txInFlightMap (transactions : List MsgTx) : List (Hash × Nat) :=
  (transactions.enum.foldl
    (fun m it => alistInsert m it.2.txHash it.1) [])

/-- Validation of one input of transaction `i`
(src/database/memdb/memdb.go:538-569).  `none` means the input passes.
Note the range check is `prevOut.Index > len(spentBuf)` — strictly
greater — exactly as in the source. -/
def validateTxIn (db : MemDb) (inFlight : List (Hash × Nat)) (i : Nat)
    (tx : MsgTx) (txIn : TxIn) : Option DbError :=
  if isCoinbaseInput txIn then none
  else if isCoinBaseTx tx then none
  else
    let prevOut := txIn.previousOutPoint
    match alistLookup inFlight prevOut.hash with
    | some inFlightIndex =>
      if i ≤ inFlightIndex then some .txShaMissing else none
    | none =>
      match alistLookup db.txns prevOut.hash with
      | none => some .txShaMissing
      | some originTxns =>
        match originTxns.getLast? with
        | none => some .indexOutOfRange  -- Go panic: originTxns[len-1] on an empty slice
        | some originTxD =>
          if originTxD.spentBuf.length < prevOut.index then some .txShaMissing
          else none

/-- The first `some` in a list of optional errors: the validation
loops return at the first failing check. -/
def firstError (l : List (Option DbError)) : Option DbError :=
  (l.filterMap id).head?

/-- Validation of transaction `i` (src/database/memdb/memdb.go:537-588):
its inputs in order, then the in-block duplicate check, then the
cross-block duplicate check. -/
def validateTx (db : MemDb) (inFlight : List (Hash × Nat)) (i : Nat)
    (tx : MsgTx) : Option DbError :=
  match firstError (tx.txIn.map (validateTxIn db inFlight i tx)) with
  | some e => some e
  | none =>
    let dupInBlock : Bool :=
      match alistLookup inFlight tx.txHash with
      | some inFlightIndex => decide (inFlightIndex < i)
      | none => false
    if dupInBlock then some .duplicateSha
    else
      match alistLookup db.txns tx.txHash with
      | none => none
      | some txns =>
        match txns.getLast? with
        | none => some .indexOutOfRange  -- Go panic: txns[len-1] on an empty slice
        | some txD =>
          if isFullySpent txD then none else some .duplicateSha

/-- One spend of the second pass (src/database/memdb/memdb.go:607-623):
set the spent flag of the referenced output on the most recent entry
for the input's prev hash.  `none` models the Go runtime panics: a
missing prev entry indexes a nil slice, and an out-of-range
`prevOut.Index` writes past `spentBuf` (reachable because validation
only rejected indexes strictly greater than the buffer length). -/
def spendInput (tx : MsgTx) (txns : TxnsMap) (txIn : TxIn) :
    Option TxnsMap :=
  if isCoinbaseInput txIn then some txns
  else if isCoinBaseTx tx then some txns
  else
    let prevOut := txIn.previousOutPoint
    match alistLookup txns prevOut.hash with
    | none => none
    | some originTxns =>
      match originTxns.getLast? with
      | none => none
      | some originTxD =>
        if prevOut.index < originTxD.spentBuf.length then
          some (alistInsert txns prevOut.hash (originTxns.dropLast ++
            [{ originTxD with
                spentBuf := originTxD.spentBuf.set prevOut.index true }]))
        else none

/-- The per-transaction step of the second pass
(src/database/memdb/memdb.go:595-624): append the new
`tTxInsertData` with an all-false spent buffer, then spend every
non-coinbase input. -/
def insertTxData (newHeight : Int) (txns : TxnsMap) (i : Nat)
    (tx : MsgTx) : Option TxnsMap :=
  let txD : tTxInsertData :=
    { blockHeight := newHeight, offset := i,
      spentBuf := List.replicate tx.txOut.length false }
  let txns := alistInsert txns tx.txHash
    ((alistLookup txns tx.txHash).getD [] ++ [txD])
  if isCoinBaseTx tx then some txns
  else tx.txIn.foldl (fun acc txIn => acc.bind (spendInput tx · txIn))
    (some txns)

/-- The whole second pass over the block's transactions. -/
def applyTxs (newHeight : Int) (txns : TxnsMap)
    (transactions : List MsgTx) : Option TxnsMap :=
  transactions.enum.foldl
    (fun acc it => acc.bind (fun m => insertTxData newHeight m it.1 it.2))
    (some txns)

/-- Source: `InsertBlock` (src/database/memdb/memdb.go:504-627).  All
validation happens before any state is built; the mutation pass runs
only when every check passed, so an error return leaves the store as
it was.  `.error .indexOutOfRange` marks the runs on which the Go code
panics mid-mutation. -/
def InsertBlock (db : MemDb) (block : MsgBlock) :
    Except DbError (Int × MemDb) :=
  if db.closed then .error .dbClosed
  else if (alistLookup db.blocksBySha block.previous).isNone
      ∧ 0 < db.blocks.length then .error .prevShaMissing
  else
    let transactions := block.transactions
    let inFlight := txInFlightMap transactions
    let newHeight : Int := db.blocks.length
    match firstError (transactions.enum.map
        (fun it => validateTx db inFlight it.1 it.2)) with
    | some e => .error e
    | none =>
      let db1 := { db with
        blocks := db.blocks ++ [block],
        blocksBySha := alistInsert db.blocksBySha block.blockHash newHeight }
      match applyTxs newHeight db1.txns transactions with
      | none => .error .indexOutOfRange  -- Go runtime panic inside the spend pass
      | some txns1 => .ok (newHeight, { db1 with txns := txns1 })

/-! removeTx / DropAfterBlockBySha (src/database/memdb/memdb.go:88-185) -/

/-- The unspend step of `removeTx` for one input
(src/database/memdb/memdb.go:90-108): a missing prev entry only logs a
warning and continues; an out-of-range index or an empty entry list is
a Go runtime panic (`none`). -/
def unspendInput (msgTx : MsgTx) (txns : TxnsMap) (txIn : TxIn) :
    Option TxnsMap :=
  if isCoinbaseInput txIn then some txns
  else if isCoinBaseTx msgTx then some txns
  else
    let prevOut := txIn.previousOutPoint
    match alistLookup txns prevOut.hash with
    | none => some txns  -- source logs a warning and continues
    | some originTxns =>
      match originTxns.getLast? with
      | none => none  -- Go panic: originTxns[len-1] on an empty slice
      | some originTxD =>
        if prevOut.index < originTxD.spentBuf.length then
          some (alistInsert txns prevOut.hash (originTxns.dropLast ++
            [{ originTxD with
                spentBuf := originTxD.spentBuf.set prevOut.index false }]))
        else none  -- Go panic: spentBuf[prevOut.Index] out of range

/-- Source: `removeTx` (src/database/memdb/memdb.go:88-123): unspend every
input, then pop the most recent entry for `txHash`, deleting the key
when no entry remains. -/
def removeTx (txns0 : TxnsMap) (msgTx : MsgTx) (txHash : Hash) :
    Option TxnsMap :=
  match msgTx.txIn.foldl (fun acc txIn => acc.bind (unspendInput msgTx · txIn))
      (some txns0) with
  | none => none
  | some m =>
    let txs := (alistLookup m txHash).getD []
    match txs.getLast? with
    | none => none  -- Go panic: txns[len(txns)-1] when the hash has no entry
    | some _ =>
      let txs1 := txs.dropLast
      if txs1.length = 0 then some (alistErase m txHash)
      else some (alistInsert m txHash txs1)

/-- One block of the drop loop: its transactions removed in REVERSE
order (src/database/memdb/memdb.go:173-178). -/
def removeBlockTxs (blk : MsgBlock) (txns : TxnsMap) : Option TxnsMap :=
  blk.transactions.reverse.foldl
    (fun acc tx => acc.bind (fun m => removeTx m tx tx.txHash))
    (some txns)

/-- The iterations of the `DropAfterBlockBySha` loop: each one removes
the last block's transactions in reverse and truncates the vector by
one. -/
def dropIter : Nat → List MsgBlock → TxnsMap →
    Option (List MsgBlock × TxnsMap)
  | 0, blocks, txns => some (blocks, txns)
  | n + 1, blocks, txns =>
    match blocks.getLast? with
    | none => some (blocks, txns)  -- unreachable: the iteration count never exceeds the vector length
    | some blk =>
      match removeBlockTxs blk txns with
      | none => none
      | some txns1 => dropIter n blocks.dropLast txns1

/-- The loop of `DropAfterBlockBySha`
(src/database/memdb/memdb.go:169-182): `for i := endHeight; i > height;
i--` with `endHeight = len(blocks)-1` runs exactly
`len(blocks) − 1 − height` iterations (none when that is negative),
each working on the current last block. -/
def dropLoop (height : Int) (blocks : List MsgBlock) (txns : TxnsMap) :
    Option (List MsgBlock × TxnsMap) :=
  dropIter ((blocks.length : Int) - 1 - height).toNat blocks txns

/-- Source: `DropAfterBlockBySha` (src/database/memdb/memdb.go:149-185).  Note
the loop never touches `blocksBySha`: the dropped blocks' hash entries
stay behind. -/
def DropAfterBlockBySha (db : MemDb) (sha : Hash) :
    Except DbError MemDb :=
  if db.closed then .error .dbClosed
  else
    match alistLookup db.blocksBySha sha with
    | none => .error .blockMissing
    | some height =>
      match dropLoop height db.blocks db.txns with
      | none => .error .indexOutOfRange  -- Go runtime panic inside removeTx
      | some (blocks1, txns1) =>
        .ok { db with blocks := blocks1, txns := txns1 }

/-- Source: `FetchHeightRange` (src/database/memdb/memdb.go:291-328).  The
assignment `endHeight = int32(len(db.blocks))` discards the caller's
end height unconditionally; the loop's `i > lastBlockIndex` break can
then never trigger, so the result is the hashes from `startHeight` to
the tip. -/
def FetchHeightRange (db : MemDb) (startHeight endHeight : Int) :
    Except DbError (List Hash) :=
  if db.closed then .error .dbClosed
  else
    let endHeight := (db.blocks.length : Int)
    if startHeight < 0 then .error .invalidRange
    else if endHeight < startHeight then .error .invalidRange
    else .ok ((db.blocks.drop startHeight.toNat).map (fun b => b.blockHash))

/-- Source: `NewestSha` (src/database/memdb/memdb.go:642-659). -/
def NewestSha (db : MemDb) : Except DbError (Hash × Int) :=
  if db.closed then .error .dbClosed
  else
    match db.blocks.getLast? with
    | none => .ok (zeroHash, -1)
    | some blk => .ok (blk.blockHash, (db.blocks.length : Int) - 1)

/-- A sequence of valid block inserts: `some` exactly when every
`InsertBlock` in turn returns without error. -/
def insertChain : MemDb → List MsgBlock → Option MemDb
  | db, [] => some db
  | db, b :: bs =>
    match InsertBlock db b with
    | .ok r => insertChain r.2 bs
    | .error _ => none

/-- The `blocksBySha` entries a chain of fresh-hash inserts appends:
the i-th block maps to height `base + i`. -/
def chainEntries (base : Nat) : List MsgBlock → List (Hash × Int)
  | [] => []
  | b :: bs => (b.blockHash, (base : Int)) :: chainEntries (base + 1) bs

end memdb

namespace netsync

/-! Peer ban scoring (src/netsync/peer.go) -/

/-- Source: `defaultBanThreshold` (src/netsync/peer.go:23). -/
def defaultBanThreshold : Nat := 100

/-- Modelled from the spec: `trust.DynamicBanScore` (not among the
extracted files).  The score has a persistent component and a
transient component that decays with wall-clock time; `Increase` adds
the increments and returns the resulting value, the sum of the two
components.  The model reads the score at a fixed instant (no decay
between operations), which is the regime of the spec's scenario S6. -/
structure DynamicBanScore where
  persistent : Nat
  transient : Nat
deriving DecidableEq, Repr

def DynamicBanScore.value (s : DynamicBanScore) : Nat :=
  s.persistent + s.transient

def DynamicBanScore.increase (s : DynamicBanScore)
    (persistent transient : Nat) : Nat × DynamicBanScore :=
  let s1 : DynamicBanScore :=
    { persistent := s.persistent + persistent,
      transient := s.transient + transient }
  (s1.value, s1)

/-- The per-peer state the ban logic touches (src/netsync/peer.go:50-60);
`addr` stands for the base peer's `Addr()` and `id` for `ID()`. -/
structure Peer where
  id : Nat
  addr : Nat
  banScore : DynamicBanScore
deriving DecidableEq, Repr

/-- Source: `peer.addBanScore` (src/netsync/peer.go:87-99): increase the score,
ban exactly when the new score strictly exceeds the threshold (the
half-threshold branch only logs a warning). -/
def Peer.addBanScore (p : Peer) (persistent transient : Nat) :
    Bool × Peer :=
  let r := p.banScore.increase persistent transient
  (decide (defaultBanThreshold < r.1), { p with banScore := r.2 })

/-- The peer set plus the observable calls it makes on the transport
(`BasePeerSet`): addresses passed to `AddBannedPeer` and ids passed to
`StopPeerGracefully`. -/
structure PeerSet where
  peers : List (Nat × Peer)
  banned : List Nat
  stopped : List Nat
deriving DecidableEq, Repr

def psLookup (ps : PeerSet) (id : Nat) : Option Peer :=
  match ps.peers.find? (fun e => e.1 == id) with
  | some e => some e.2
  | none => none

def psUpdate (ps : PeerSet) (id : Nat) (p : Peer) : PeerSet :=
  { ps with peers := ps.peers.map (fun e => if e.1 == id then (id, p) else e) }

/-- Source: `peerSet.removePeer` (src/netsync/peer.go:429-435): delete from the
map, then ask the transport to stop the connection. -/
def PeerSet.removePeer (ps : PeerSet) (id : Nat) : PeerSet :=
  { ps with
    peers := ps.peers.filter (fun e => !(e.1 == id)),
    stopped := ps.stopped ++ [id] }

/-- Source: `peerSet.addBanScore` (src/netsync/peer.go:274-289): look the peer
up; when its `addBanScore` reports a ban, call the transport's
`AddBannedPeer` with the peer's address and remove the peer. -/
def PeerSet.addBanScore (ps : PeerSet) (peerID : Nat)
    (persistent transient : Nat) : PeerSet :=
  match psLookup ps peerID with
  | none => ps
  | some p =>
    let r := p.addBanScore persistent transient
    let ps1 := psUpdate ps peerID r.2
    if r.1 then
      ({ ps1 with banned := ps1.banned ++ [r.2.addr] } : PeerSet).removePeer peerID
    else ps1

end netsync

/-! Concrete test vectors

Small blocks and scripts used to instantiate the theorems below on
concrete inputs.  Hash values are arbitrary distinct naturals standing
for the (collision-free) content hashes. -/

namespace vectors

open memdb

/-- The coinbase input: the sentinel outpoint `(zeroHash, MaxUint32)`. -/
def cbIn : TxIn := ⟨⟨zeroHash, maxUint32⟩⟩

/-- Genesis coinbase transaction with a single output. -/
def txA : MsgTx := ⟨[cbIn], [⟨[]⟩], 100⟩

/-- Genesis block. -/
def gBlock : MsgBlock := ⟨7, [txA], 1⟩

/-- Coinbase of the second block. -/
def txC1 : MsgTx := ⟨[cbIn], [⟨[]⟩], 101⟩

/-- A transaction spending output 0 of `txA`. -/
def txT : MsgTx := ⟨[⟨⟨100, 0⟩⟩], [⟨[]⟩], 200⟩

/-- A valid second block on top of `gBlock`. -/
def b1Block : MsgBlock := ⟨1, [txC1, txT], 2⟩

/-- The store after inserting `gBlock`. -/
def gdb : MemDb :=
  match InsertBlock newMemDb gBlock with
  | .ok r => r.2
  | .error _ => newMemDb

/-- The store after inserting `gBlock` then `b1Block`. -/
def c1db : MemDb :=
  (insertChain newMemDb [gBlock, b1Block]).getD newMemDb

/-- Source: `c1db` after dropping everything above the genesis block. -/
def c1dbDropped : MemDb :=
  match DropAfterBlockBySha c1db gBlock.blockHash with
  | .ok d => d
  | .error _ => newMemDb

/-- A transaction whose input references output index 1 of the
one-output transaction `txA`: the index equals the spent-buffer
length, which the insert validation accepts (`>` check) and the spend
pass then writes out of range. -/
def txBad : MsgTx := ⟨[⟨⟨100, 1⟩⟩], [⟨[]⟩], 201⟩

/-- A block carrying `txBad` on top of `gBlock`. -/
def badBlock : MsgBlock := ⟨1, [txC1, txBad], 3⟩

/-- Coinbase for the duplicate-transaction block. -/
def txCb : MsgTx := ⟨[cbIn], [⟨[]⟩], 300⟩

/-- A transaction spending the in-flight coinbase `txCb`. -/
def txD1 : MsgTx := ⟨[⟨⟨300, 0⟩⟩], [⟨[]⟩], 301⟩

/-- A block containing the SAME transaction (`txD1`, hash 301) twice. -/
def dupBlock : MsgBlock := ⟨7, [txCb, txD1, txD1], 5⟩

/-- A multisig script whose single 33-byte pubkey push is not a valid
serialized public key (prefix 0): classification accepts it (it only
checks the push length), address construction rejects it. -/
def badKeyMultiSig : List Nat :=
  [0x51, 0x21] ++ List.replicate 33 0x00 ++ [0x51, 0xae]

end vectors

/-! Theorems about the claims. -/

/-- C10: classification is pure and deterministic; a byte sequence
that fails to parse classifies `NonStandardTy`; on a parsed opcode
sequence the class is decided by the predicates in the fixed
precedence multisig, null-data, witness-v0-script-hash,
locktime-script-hash, first match winning, else non-standard. -/
theorem claimC10 :
    (∀ s : List Nat, txscript.GetScriptClass s = txscript.GetScriptClass s)
    ∧ (∀ s : List Nat, txscript.parseScript s = .error () →
        txscript.GetScriptClass s = txscript.NonStandardTy)
    ∧ (∀ pops : List txscript.parsedOpcode,
        (txscript.isMultiSig pops = true →
          txscript.typeOfScript pops = txscript.MultiSigTy)
        ∧ (txscript.isMultiSig pops = false → txscript.isNullData pops = true →
          txscript.typeOfScript pops = txscript.NullDataTy)
        ∧ (txscript.isMultiSig pops = false → txscript.isNullData pops = false →
            txscript.isWitnessScriptHash pops = true →
          txscript.typeOfScript pops = txscript.WitnessV0ScriptHashTy)
        ∧ (txscript.isMultiSig pops = false → txscript.isNullData pops = false →
            txscript.isWitnessScriptHash pops = false →
            txscript.isLocktimeScriptHash pops = true →
          txscript.typeOfScript pops = txscript.LocktimeScriptHashTy)
        ∧ (txscript.isMultiSig pops = false → txscript.isNullData pops = false →
            txscript.isWitnessScriptHash pops = false →
            txscript.isLocktimeScriptHash pops = false →
          txscript.typeOfScript pops = txscript.NonStandardTy)) := by
  refine ⟨fun s => rfl, fun s h => ?_, fun pops => ?_⟩
  · simp [txscript.GetScriptClass, h]
  · refine ⟨fun h1 => ?_, fun h1 h2 => ?_, fun h1 h2 h3 => ?_,
      fun h1 h2 h3 h4 => ?_, fun h1 h2 h3 h4 => ?_⟩
    · simp [txscript.typeOfScript, h1]
    · simp [txscript.typeOfScript, h1, h2]
    · simp [txscript.typeOfScript, h1, h2, h3]
    · simp [txscript.typeOfScript, h1, h2, h3, h4]
    · simp [txscript.typeOfScript, h1, h2, h3, h4]

/-- Witness for C10 at concrete inputs: the truncated push `[0x4c]`
does not parse and classifies non-standard; a lone `OP_RETURN` parses
and classifies null-data through the precedence chain. -/
theorem claimC10_witness :
    txscript.GetScriptClass [0x4c] = txscript.NonStandardTy
    ∧ txscript.typeOfScript [⟨txscript.OP_RETURN, none⟩] = txscript.NullDataTy := by
  exact ⟨claimC10.2.1 [0x4c] (by decide),
    (claimC10.2.2 [⟨txscript.OP_RETURN, none⟩]).2.1 (by decide) (by decide)⟩

/-- After `removePeer` filters out an id, looking it up fails. -/
theorem psLookup_removePeer (ps : netsync.PeerSet) (id : Nat) :
    netsync.psLookup (ps.removePeer id) id = none := by
  have h : ∀ l : List (Nat × netsync.Peer),
      (l.filter (fun e => !(e.1 == id))).find? (fun e => e.1 == id) = none := by
    intro l
    induction l with
    | nil => rfl
    | cons e tl ih =>
      by_cases he : e.1 = id
      · simp [List.filter_cons, he, ih]
      · simp [List.filter_cons, he, List.find?_cons, ih]
  show (match (ps.peers.filter (fun e => !(e.1 == id))).find?
      (fun e => e.1 == id) with
    | some e => some e.2
    | none => none) = none
  rw [h ps.peers]

/-- C9: `addBanScore` on a peer returns true exactly when the score
after the increase strictly exceeds `defaultBanThreshold = 100`; when
it does, the peer set passes the peer's address to the transport's
`AddBannedPeer` and removes the peer (which also stops it); when it
does not, no ban call is made and the peer stays. -/
theorem claimC9 :
    (∀ (p : netsync.Peer) (persistent transient : Nat),
      ((p.addBanScore persistent transient).1 = true ↔
        netsync.defaultBanThreshold <
          p.banScore.value + persistent + transient))
    ∧ (∀ (ps : netsync.PeerSet) (id persistent transient : Nat)
        (p : netsync.Peer), netsync.psLookup ps id = some p →
        (netsync.defaultBanThreshold <
            p.banScore.value + persistent + transient →
          (ps.addBanScore id persistent transient).banned = ps.banned ++ [p.addr]
          ∧ netsync.psLookup (ps.addBanScore id persistent transient) id = none
          ∧ (ps.addBanScore id persistent transient).stopped = ps.stopped ++ [id])
        ∧ (p.banScore.value + persistent + transient ≤
            netsync.defaultBanThreshold →
          (ps.addBanScore id persistent transient).banned = ps.banned
          ∧ (ps.addBanScore id persistent transient).stopped = ps.stopped)) := by
  constructor
  · intro p persistent transient
    simp only [netsync.Peer.addBanScore, netsync.DynamicBanScore.increase,
      netsync.DynamicBanScore.value, decide_eq_true_eq]
    omega
  · intro ps id persistent transient p hp
    have hban : (p.addBanScore persistent transient).1 = true ↔
        netsync.defaultBanThreshold < p.banScore.value + persistent + transient := by
      simp only [netsync.Peer.addBanScore, netsync.DynamicBanScore.increase,
        netsync.DynamicBanScore.value, decide_eq_true_eq]
      omega
    have haddr : (p.addBanScore persistent transient).2.addr = p.addr := rfl
    constructor
    · intro hover
      have hb : (p.addBanScore persistent transient).1 = true := hban.mpr hover
      unfold netsync.PeerSet.addBanScore
      rw [hp]
      simp only [hb, if_true]
      refine ⟨?_, ?_, ?_⟩
      · simp [netsync.PeerSet.removePeer, netsync.psUpdate, haddr]
      · exact psLookup_removePeer _ id
      · simp [netsync.PeerSet.removePeer, netsync.psUpdate]
    · intro hunder
      have hb : (p.addBanScore persistent transient).1 = false := by
        rcases Bool.eq_false_or_eq_true (p.addBanScore persistent transient).1
          with h | h
        · exact absurd (hban.mp h) (by omega)
        · exact h
      unfold netsync.PeerSet.addBanScore
      rw [hp]
      simp only [hb, Bool.false_eq_true, if_false]
      exact ⟨rfl, rfl⟩

/-- Witness for C9, the spec's scenario S6: a peer with accumulated
score 60 gains 50 more → score 110 > 100, the transport is told to ban
address 42 and the peer is removed; the same increment from score 30
leaves the peer alone. -/
theorem claimC9_witness :
    ((netsync.Peer.addBanScore ⟨1, 42, ⟨60, 0⟩⟩ 50 0).1 = true
      ∧ (netsync.PeerSet.addBanScore ⟨[(1, ⟨1, 42, ⟨60, 0⟩⟩)], [], []⟩ 1 50 0).banned
          = [42]
      ∧ netsync.psLookup
          (netsync.PeerSet.addBanScore ⟨[(1, ⟨1, 42, ⟨60, 0⟩⟩)], [], []⟩ 1 50 0) 1
          = none
      ∧ (netsync.PeerSet.addBanScore ⟨[(1, ⟨1, 42, ⟨60, 0⟩⟩)], [], []⟩ 1 50 0).stopped
          = [1])
    ∧ (netsync.PeerSet.addBanScore ⟨[(1, ⟨1, 42, ⟨30, 0⟩⟩)], [], []⟩ 1 50 0).banned
        = [] := by
  have h1 := (claimC9.1 ⟨1, 42, ⟨60, 0⟩⟩ 50 0).mpr (by decide)
  have h2 := claimC9.2 ⟨[(1, ⟨1, 42, ⟨60, 0⟩⟩)], [], []⟩ 1 50 0 ⟨1, 42, ⟨60, 0⟩⟩
    (by decide)
  have h3 := claimC9.2 ⟨[(1, ⟨1, 42, ⟨30, 0⟩⟩)], [], []⟩ 1 50 0 ⟨1, 42, ⟨30, 0⟩⟩
    (by decide)
  have h2a := h2.1 (by decide)
  have h3a := h3.2 (by decide)
  exact ⟨⟨h1, h2a.1, h2a.2.1, h2a.2.2⟩, h3a.1⟩

/-- Counterexample for C7: on a store holding one block, a fetch
starting at height 2 returns an error, not the empty hash list that
the claim predicts when it says the call otherwise returns the hashes
of heights start through count−1. -/
theorem claimC7_counterexample :
    memdb.FetchHeightRange vectors.gdb 2 5 = .error .invalidRange
    ∧ memdb.FetchHeightRange vectors.gdb 2 5 ≠ .ok [] := by
  decide

/-- C7, amended: `FetchHeightRange` ignores the caller's end height
entirely (any two end arguments give the same result), errors on a
negative start, errors ALSO whenever the start exceeds the block
count (the clamped end is then below the start), and otherwise
returns the hashes of the blocks from `start` to the tip in order. -/
theorem claimC7_amended :
    ∀ (db : memdb.MemDb) (s e1 e2 : Int),
      (memdb.FetchHeightRange db s e1 = memdb.FetchHeightRange db s e2)
      ∧ (db.closed = false → s < 0 →
          memdb.FetchHeightRange db s e1 = .error .invalidRange)
      ∧ (db.closed = false → 0 ≤ s → s ≤ (db.blocks.length : Int) →
          memdb.FetchHeightRange db s e1 =
            .ok ((db.blocks.drop s.toNat).map (fun b => b.blockHash)))
      ∧ (db.closed = false → (db.blocks.length : Int) < s →
          memdb.FetchHeightRange db s e1 = .error .invalidRange) := by
  intro db s e1 e2
  refine ⟨rfl, fun hc hs => ?_, fun hc hs0 hsl => ?_, fun hc hsl => ?_⟩
  · simp [memdb.FetchHeightRange, hc, hs]
  · have h1 : ¬ s < 0 := by omega
    have h2 : ¬ (db.blocks.length : Int) < s := by omega
    simp [memdb.FetchHeightRange, hc, h1, h2]
  · have h1 : ¬ s < 0 := by omega
    simp [memdb.FetchHeightRange, hc, h1, hsl]

/-- Witness for C7 at concrete inputs: on the one-block store the end
argument is immaterial, and a fetch from 0 yields the genesis hash. -/
theorem claimC7_witness :
    memdb.FetchHeightRange vectors.gdb 0 5 =
      memdb.FetchHeightRange vectors.gdb 0 99
    ∧ memdb.FetchHeightRange vectors.gdb 0 5 = .ok [1]
    ∧ memdb.FetchHeightRange vectors.gdb (-3) 5 = .error .invalidRange := by
  have h := claimC7_amended vectors.gdb 0 5 99
  have h2 := (claimC7_amended vectors.gdb (-3) 5 99).2.1 (by decide) (by decide)
  refine ⟨h.1, ?_, h2⟩
  have h3 := (h.2.2.1) (by decide) (by decide) (by decide)
  rw [h3]
  decide

/-- C6: `CalcScriptInfo` assumes at least one witness element.  For
every parseable pk script and non-empty witness the accesses to the
first and last witness elements are in bounds and a `ScriptInfo` is
returned; on an empty witness the access to the last witness element
is out of bounds (a runtime fault, so the function is not total
there). -/
theorem claimC6 :
    (∀ (pk : List Nat) (w : List (List Nat))
        (pops : List txscript.parsedOpcode),
      txscript.parseScript pk = .ok pops → w ≠ [] →
      ∃ si, txscript.CalcScriptInfo pk w = .ok si)
    ∧ (∀ (pk : List Nat) (pops : List txscript.parsedOpcode),
      txscript.parseScript pk = .ok pops →
      txscript.CalcScriptInfo pk [] = .error .indexOutOfRange) := by
  constructor
  · intro pk w pops hparse hw
    obtain ⟨a, tl, rfl⟩ : ∃ a tl, w = a :: tl := by
      cases w with
      | nil => exact absurd rfl hw
      | cons a tl => exact ⟨a, tl, rfl⟩
    have hx : (a :: tl).getLast? = some ((a :: tl).getLast (by simp)) :=
      List.getLast?_eq_getLast _ (by simp)
    simp only [txscript.CalcScriptInfo, hparse, hx, List.head?_cons]
    split
    · exact ⟨_, rfl⟩
    · split
      · exact ⟨_, rfl⟩
      · exact ⟨_, rfl⟩
  · intro pk pops hparse
    simp [txscript.CalcScriptInfo, hparse]

/-- Witness for C6 at concrete inputs: a null-data pk script with a
one-element witness yields a `ScriptInfo`; the same script with an
empty witness faults. -/
theorem claimC6_witness :
    (∃ si, txscript.CalcScriptInfo [0x6a] [[]] = .ok si)
    ∧ txscript.CalcScriptInfo [0x6a] [] = .error .indexOutOfRange := by
  exact ⟨claimC6.1 [0x6a] [[]] [⟨0x6a, none⟩] (by decide) (by decide),
    claimC6.2 [0x6a] [⟨0x6a, none⟩] (by decide)⟩

/-- C2 failing input: the store holds the one-output transaction `txA`
(spent buffer length 1) and the inserted block spends outpoint
`(txA, 1)`.  The validation check `prevOut.Index > len(spentBuf)`
accepts the index equal to the length, so no `TxShaMissing` is
returned; the spend pass then writes `spentBuf[1]` — out of range, a
runtime fault.  (For indexes strictly beyond the length, and a genuine
`TxShaMissing` at index 2, see the second conjunct.) -/
theorem claimC2_bug :
    memdb.InsertBlock vectors.gdb vectors.badBlock = .error .indexOutOfRange
    ∧ memdb.InsertBlock vectors.gdb vectors.badBlock ≠ .error .txShaMissing
    ∧ memdb.InsertBlock vectors.gdb
        ⟨1, [vectors.txC1, ⟨[⟨⟨100, 2⟩⟩], [⟨[]⟩], 202⟩], 3⟩ =
        .error .txShaMissing := by
  decide

/-- C3 failing input: a block containing the same transaction (hash
301) twice.  The in-flight duplicate check compares each position
against the hash's LAST in-flight index, which is never smaller, so it
can never fire: the insert succeeds (height 0) instead of returning
`DuplicateSha`, and the store ends with two simultaneously unspent
entries for hash 301. -/
theorem claimC3_bug :
    (memdb.InsertBlock memdb.newMemDb vectors.dupBlock).isOk = true
    ∧ memdb.InsertBlock memdb.newMemDb vectors.dupBlock ≠
        .error .duplicateSha
    ∧ (match memdb.InsertBlock memdb.newMemDb vectors.dupBlock with
        | .ok r => ((memdb.alistLookup r.2.txns 301).getD []).length
        | .error _ => 0) = 2 := by
  decide

/-- C5 failing input: a script classifying as multisig whose 33-byte
pubkey push has prefix 0 and is not a valid serialized public key.
Instead of silently skipping it, `ExtractPkScriptAddrs` calls
`addr.PubKey()` on the nil address returned by the failed
construction — a nil-pointer dereference, modelled as the
`nilPointerDereference` fault. -/
theorem claimC5_bug :
    txscript.GetScriptClass vectors.badKeyMultiSig = txscript.MultiSigTy
    ∧ txscript.ExtractPkScriptAddrs vectors.badKeyMultiSig =
        .error .nilPointerDereference := by
  decide

/-! Step lemmas for the opcode parser. -/

/-- One parser step on a direct push: byte `n` (1..75) consumes the
`n`-byte payload. -/
theorem parseOps_push (f n : Nat) (d rest : List Nat) (h1 : 1 ≤ n)
    (h2 : n ≤ 75) (hd : d.length = n) :
    txscript.parseOps (f + 1) (n :: (d ++ rest)) =
      (txscript.parseOps f rest).map (fun tl => ⟨n, some d⟩ :: tl) := by
  have hlen : n ≤ (d ++ rest).length := by
    simp [List.length_append, hd]
  rw [txscript.parseOps.eq_3]
  rw [if_pos ⟨h1, h2⟩, if_pos hlen, List.take_left' hd, List.drop_left' hd]

/-- One parser step on a single-byte opcode (not a push, not a
`PUSHDATA`). -/
theorem parseOps_op (f b : Nat) (rest : List Nat)
    (h1 : ¬ (1 ≤ b ∧ b ≤ 75)) (h2 : b ≠ 0x4c) (h3 : b ≠ 0x4d)
    (h4 : b ≠ 0x4e) :
    txscript.parseOps (f + 1) (b :: rest) =
      (txscript.parseOps f rest).map (fun tl => ⟨b, none⟩ :: tl) := by
  rw [txscript.parseOps.eq_3]
  rw [if_neg h1, if_neg (by simpa [txscript.OP_PUSHDATA1] using h2),
    if_neg (by simpa [txscript.OP_PUSHDATA2] using h3),
    if_neg (by simpa [txscript.OP_PUSHDATA4] using h4)]

/-- Counterexample for C4: built for the 32-byte hash of 0x11 bytes,
the script classifies as witness-v0 script hash, but `PushedData`
returns TWO entries — the leading `OP_0` contributes a nil entry
before the hash — not the one-element list `[h]` the claim states. -/
theorem claimC4_counterexample :
    txscript.payToWitnessScriptHashScript (List.replicate 32 0x11) =
      .ok ([0x00, 0x20] ++ List.replicate 32 0x11)
    ∧ txscript.PushedData ([0x00, 0x20] ++ List.replicate 32 0x11) ≠
        .ok [List.replicate 32 0x11]
    ∧ txscript.PushedData ([0x00, 0x20] ++ List.replicate 32 0x11) =
        .ok [[], List.replicate 32 0x11] := by
  decide

/-- C4, amended: for every 32-byte `h`,
`pay_to_witness_script_hash(h)` builds `0x00 0x20 ∥ h`, the built
script classifies as `WitnessV0ScriptHashTy`, and pushed-data
extraction returns the two-element list `[[], h]`: an empty entry for
`OP_0`, then `h`. -/
theorem claimC4_amended (h : List Nat) (hlen : h.length = 32) :
    txscript.payToWitnessScriptHashScript h = .ok (0x00 :: 0x20 :: h)
    ∧ txscript.GetScriptClass (0x00 :: 0x20 :: h) =
        txscript.WitnessV0ScriptHashTy
    ∧ txscript.PushedData (0x00 :: 0x20 :: h) = .ok [[], h] := by
  have hpush : txscript.canonicalDataPush h = 32 :: h := by
    unfold txscript.canonicalDataPush
    rw [if_neg, if_neg, if_neg, if_pos]
    · rw [hlen]; simp [txscript.OP_DATA_1]
    · rw [hlen]; simp [txscript.OP_PUSHDATA1]
    · rw [hlen]; simp
    · rw [hlen]; simp
    · rw [hlen]; simp
  have hparse : txscript.parseScript (0x00 :: 0x20 :: h) =
      .ok [⟨0x00, none⟩, ⟨0x20, some h⟩] := by
    show txscript.parseOps (0x00 :: 0x20 :: h).length (0x00 :: 0x20 :: h) =
      .ok [⟨0x00, none⟩, ⟨0x20, some h⟩]
    rw [List.length_cons, List.length_cons]
    rw [parseOps_op (h.length + 1) 0x00 (0x20 :: h) (by omega)
      (by omega) (by omega) (by omega)]
    have h2 : (0x20 : Nat) :: h = 0x20 :: (h ++ []) := by simp
    rw [h2, parseOps_push h.length 0x20 h [] (by omega) (by omega) hlen]
    rw [txscript.parseOps.eq_1]
    rfl
  refine ⟨?_, ?_, ?_⟩
  · show Except.ok (txscript.OP_0 :: txscript.canonicalDataPush h) = _
    rw [hpush]
    rfl
  · rw [txscript.GetScriptClass, hparse]
    rfl
  · rw [txscript.PushedData, hparse]
    rfl

/-- Witness for C4 at the concrete 32-byte hash of 0x22 bytes. -/
theorem claimC4_witness :
    txscript.payToWitnessScriptHashScript (List.replicate 32 0x22) =
      .ok (0x00 :: 0x20 :: List.replicate 32 0x22)
    ∧ txscript.GetScriptClass (0x00 :: 0x20 :: List.replicate 32 0x22) =
        txscript.WitnessV0ScriptHashTy
    ∧ txscript.PushedData (0x00 :: 0x20 :: List.replicate 32 0x22) =
        .ok [[], List.replicate 32 0x22] :=
  claimC4_amended (List.replicate 32 0x22) (by decide)

/-- A payload of 2..75 bytes is encoded as a direct push. -/
theorem canonicalDataPush_direct (d : List Nat) (h2 : 2 ≤ d.length)
    (h75 : d.length ≤ 75) :
    txscript.canonicalDataPush d = d.length :: d := by
  unfold txscript.canonicalDataPush
  rw [if_neg, if_neg, if_neg, if_pos]
  · simp [txscript.OP_DATA_1]
  · simp only [txscript.OP_PUSHDATA1]; omega
  · rintro ⟨hh, -⟩; omega
  · rintro ⟨hh, -⟩; omega
  · rintro (hh | ⟨hh, -⟩) <;> omega

/-- The key section of a multisig script, unfolded one key. -/
theorem multiSigKeyPushes_cons (k : txscript.AddressPubKey)
    (tl : List txscript.AddressPubKey)
    (h2 : 2 ≤ k.scriptAddress.length) (h75 : k.scriptAddress.length ≤ 75) :
    txscript.multiSigKeyPushes (k :: tl) =
      k.scriptAddress.length ::
        (k.scriptAddress ++ txscript.multiSigKeyPushes tl) := by
  show txscript.canonicalDataPush k.scriptAddress ++
      txscript.multiSigKeyPushes tl = _
  rw [canonicalDataPush_direct _ h2 h75]
  rfl

/-- The parser consumes the key section push by push; the fuel counts
one unit per key. -/
theorem parseOps_keyPushes :
    ∀ (pks : List txscript.AddressPubKey) (f : Nat) (rest : List Nat),
    (∀ k ∈ pks, k.scriptAddress.length = 33 ∨ k.scriptAddress.length = 65) →
    txscript.parseOps (pks.length + f)
        (txscript.multiSigKeyPushes pks ++ rest) =
      (txscript.parseOps f rest).map
        (fun tl => txscript.multiSigKeyPops pks ++ tl) := by
  intro pks
  induction pks with
  | nil =>
    intro f rest _
    show txscript.parseOps (0 + f) ([] ++ rest) = _
    rw [Nat.zero_add, List.nil_append]
    cases h : txscript.parseOps f rest <;> rfl
  | cons k tl ih =>
    intro f rest hk
    have hkk := hk k (List.mem_cons_self k tl)
    rw [multiSigKeyPushes_cons k tl (by omega) (by omega)]
    have hfuel : (k :: tl).length + f = (tl.length + f) + 1 := by
      simp [List.length_cons]; omega
    rw [hfuel]
    have hshape : (k.scriptAddress.length ::
        (k.scriptAddress ++ txscript.multiSigKeyPushes tl)) ++ rest =
        k.scriptAddress.length ::
          (k.scriptAddress ++ (txscript.multiSigKeyPushes tl ++ rest)) := by
      simp
    rw [hshape]
    rw [parseOps_push (tl.length + f) k.scriptAddress.length k.scriptAddress
      (txscript.multiSigKeyPushes tl ++ rest) (by omega) (by omega) rfl]
    rw [ih f rest (fun k hkmem => hk k (List.mem_cons_of_mem _ hkmem))]
    cases h : txscript.parseOps f rest <;> rfl

/-- Byte length of the key section: one length byte plus the payload
per key. -/
theorem multiSigKeyPushes_length :
    ∀ (pks : List txscript.AddressPubKey),
    (∀ k ∈ pks, k.scriptAddress.length = 33 ∨ k.scriptAddress.length = 65) →
    (txscript.multiSigKeyPushes pks).length =
      pks.length + (pks.map (fun k => k.scriptAddress.length)).sum := by
  intro pks
  induction pks with
  | nil => intro _; rfl
  | cons k tl ih =>
    intro hk
    have hkk := hk k (List.mem_cons_self k tl)
    rw [multiSigKeyPushes_cons k tl (by omega) (by omega)]
    simp only [List.length_cons, List.length_append, List.map_cons,
      List.sum_cons]
    rw [ih (fun k hkmem => hk k (List.mem_cons_of_mem _ hkmem))]
    omega

/-- Source: `AddInt64` emits a single opcode byte for values 0..16. -/
theorem addInt64Push_small (v : Int) (h0 : 0 ≤ v) (h16 : v ≤ 16) :
    txscript.addInt64Push v = [txscript.smallIntByte v] := by
  unfold txscript.addInt64Push txscript.smallIntByte
  by_cases hv : v = 0
  · simp [hv]
  · rw [if_neg hv, if_pos (Or.inr ⟨by omega, h16⟩), if_neg hv]

/-- The single byte for 0..16 is no push opcode. -/
theorem smallIntByte_not_push (v : Int) (h0 : 0 ≤ v) (h16 : v ≤ 16) :
    ¬ (1 ≤ txscript.smallIntByte v ∧ txscript.smallIntByte v ≤ 75)
    ∧ txscript.smallIntByte v ≠ 0x4c
    ∧ txscript.smallIntByte v ≠ 0x4d
    ∧ txscript.smallIntByte v ≠ 0x4e := by
  unfold txscript.smallIntByte
  by_cases hv : v = 0
  · rw [if_pos hv]; simp [txscript.OP_0]
  · rw [if_neg hv]
    have h1 : 1 ≤ v.toNat := by omega
    have h2 : v.toNat ≤ 16 := by omega
    simp only [txscript.OP_1]
    omega

/-- The single byte for 0..16 is a small-int opcode of that value. -/
theorem smallIntByte_small (v : Int) (h0 : 0 ≤ v) (h16 : v ≤ 16) :
    txscript.isSmallInt (txscript.smallIntByte v) = true
    ∧ txscript.asSmallInt (txscript.smallIntByte v) = v.toNat := by
  unfold txscript.isSmallInt txscript.asSmallInt txscript.smallIntByte
  by_cases hv : v = 0
  · rw [if_pos hv, if_pos rfl]
    subst hv
    simp
  · rw [if_neg hv]
    have h1 : 1 ≤ v.toNat := by omega
    have h2 : v.toNat ≤ 16 := by omega
    constructor
    · simp only [decide_eq_true_eq, txscript.OP_0, txscript.OP_1,
        txscript.OP_16]
      omega
    · rw [if_neg (by simp only [txscript.OP_0]; omega)]
      simp only [txscript.OP_1]
      omega

/-- The script `MultiSigScript` builds parses to a small-int opcode,
the key pushes, a small-int opcode and `OP_CHECKMULTISIG`. -/
theorem parse_multiSigScript (pks : List txscript.AddressPubKey) (n : Int)
    (h0 : 0 ≤ n) (h16 : n ≤ 16) (hm1 : 1 ≤ pks.length)
    (hm16 : pks.length ≤ 16)
    (hk : ∀ k ∈ pks, k.scriptAddress.length = 33 ∨ k.scriptAddress.length = 65) :
    txscript.parseScript
        (txscript.addInt64Push n ++ txscript.multiSigKeyPushes pks ++
          txscript.addInt64Push (pks.length : Int) ++
          [txscript.OP_CHECKMULTISIG]) =
      .ok (⟨txscript.smallIntByte n, none⟩ ::
        (txscript.multiSigKeyPops pks ++
          [⟨txscript.smallIntByte (pks.length : Int), none⟩,
           ⟨txscript.OP_CHECKMULTISIG, none⟩])) := by
  have hS := multiSigKeyPushes_length pks hk
  rw [addInt64Push_small n h0 h16,
    addInt64Push_small (pks.length : Int) (by omega) (by omega)]
  have hshape : [txscript.smallIntByte n] ++ txscript.multiSigKeyPushes pks ++
      [txscript.smallIntByte (pks.length : Int)] ++
      [txscript.OP_CHECKMULTISIG] =
      txscript.smallIntByte n :: (txscript.multiSigKeyPushes pks ++
        [txscript.smallIntByte (pks.length : Int),
         txscript.OP_CHECKMULTISIG]) := by
    simp
  rw [hshape]
  unfold txscript.parseScript
  have hlen : (txscript.smallIntByte n :: (txscript.multiSigKeyPushes pks ++
      [txscript.smallIntByte (pks.length : Int),
       txscript.OP_CHECKMULTISIG])).length =
      (pks.length +
        ((pks.map (fun k => k.scriptAddress.length)).sum + 2)) + 1 := by
    simp only [List.length_cons, List.length_append, hS]
    simp
    omega
  rw [hlen]
  obtain ⟨hn1, hn2, hn3, hn4⟩ := smallIntByte_not_push n h0 h16
  rw [parseOps_op _ _ _ hn1 hn2 hn3 hn4]
  rw [parseOps_keyPushes pks _ _ hk]
  obtain ⟨hp1, hp2, hp3, hp4⟩ :=
    smallIntByte_not_push (pks.length : Int) (by omega) (by omega)
  have hsplit : ([txscript.smallIntByte (pks.length : Int),
      txscript.OP_CHECKMULTISIG] : List Nat) =
      txscript.smallIntByte (pks.length : Int) ::
        [txscript.OP_CHECKMULTISIG] := rfl
  have harith : (pks.map (fun k => k.scriptAddress.length)).sum + 2 =
      ((pks.map (fun k => k.scriptAddress.length)).sum + 1) + 1 := by omega
  rw [hsplit, harith]
  rw [parseOps_op _ _ _ hp1 hp2 hp3 hp4]
  rw [parseOps_op _ txscript.OP_CHECKMULTISIG []
    (by simp [txscript.OP_CHECKMULTISIG])
    (by simp [txscript.OP_CHECKMULTISIG])
    (by simp [txscript.OP_CHECKMULTISIG])
    (by simp [txscript.OP_CHECKMULTISIG])]
  rw [txscript.parseOps.eq_1]
  rfl

/-- The parsed multisig script satisfies the `isMultiSig` predicate. -/
theorem isMultiSig_built (pks : List txscript.AddressPubKey) (n : Int)
    (h0 : 0 ≤ n) (h16 : n ≤ 16) (hm1 : 1 ≤ pks.length)
    (hm16 : pks.length ≤ 16)
    (hk : ∀ k ∈ pks, k.scriptAddress.length = 33 ∨ k.scriptAddress.length = 65) :
    txscript.isMultiSig (⟨txscript.smallIntByte n, none⟩ ::
        (txscript.multiSigKeyPops pks ++
          [⟨txscript.smallIntByte (pks.length : Int), none⟩,
           ⟨txscript.OP_CHECKMULTISIG, none⟩])) = true := by
  have hkplen : (txscript.multiSigKeyPops pks).length = pks.length := by
    simp [txscript.multiSigKeyPops]
  have hlen : (⟨txscript.smallIntByte n, none⟩ ::
      (txscript.multiSigKeyPops pks ++
        [⟨txscript.smallIntByte (pks.length : Int), none⟩,
         (⟨txscript.OP_CHECKMULTISIG, none⟩ : txscript.parsedOpcode)])).length =
      pks.length + 3 := by
    simp [hkplen]
  have hgd0 : (⟨txscript.smallIntByte n, none⟩ ::
      (txscript.multiSigKeyPops pks ++
        [⟨txscript.smallIntByte (pks.length : Int), none⟩,
         (⟨txscript.OP_CHECKMULTISIG, none⟩ : txscript.parsedOpcode)])).getD 0
      txscript.defaultPop = ⟨txscript.smallIntByte n, none⟩ :=
    List.getD_cons_zero
  have hgdm : ∀ j : Nat, j ≤ 1 →
      (⟨txscript.smallIntByte n, none⟩ ::
      (txscript.multiSigKeyPops pks ++
        [⟨txscript.smallIntByte (pks.length : Int), none⟩,
         (⟨txscript.OP_CHECKMULTISIG, none⟩ : txscript.parsedOpcode)])).getD
        (pks.length + 1 + j) txscript.defaultPop =
      ([⟨txscript.smallIntByte (pks.length : Int), none⟩,
        (⟨txscript.OP_CHECKMULTISIG, none⟩ : txscript.parsedOpcode)]).getD j
        txscript.defaultPop := by
    intro j hj
    have h1 : pks.length + 1 + j = (pks.length + j) + 1 := by omega
    rw [h1, List.getD_cons_succ]
    rw [List.getD_append_right _ _ _ _ (by omega)]
    congr 1
    omega
  obtain ⟨hsmN, hasN⟩ := smallIntByte_small n h0 h16
  obtain ⟨hsmM, hasM⟩ :=
    smallIntByte_small (pks.length : Int) (by omega) (by omega)
  simp only [txscript.isMultiSig]
  rw [decide_eq_true_eq]
  rw [hlen]
  refine ⟨by omega, ?_, ?_, ?_, ?_, ?_⟩
  · rw [hgd0]; exact hsmN
  · have h1 : pks.length + 3 - 2 = pks.length + 1 + 0 := by omega
    rw [h1, hgdm 0 (by omega), List.getD_cons_zero]
    exact hsmM
  · have h1 : pks.length + 3 - 1 = pks.length + 1 + 1 := by omega
    rw [h1, hgdm 1 (by omega), List.getD_cons_succ, List.getD_cons_zero]
  · have h1 : pks.length + 3 - 2 = pks.length + 1 + 0 := by omega
    rw [h1, hgdm 0 (by omega), List.getD_cons_zero, hasM]
    omega
  · have h1 : pks.length + 3 - 3 = pks.length := by omega
    rw [h1]
    have hdrop : ((⟨txscript.smallIntByte n, none⟩ ::
        (txscript.multiSigKeyPops pks ++
          [⟨txscript.smallIntByte (pks.length : Int), none⟩,
           (⟨txscript.OP_CHECKMULTISIG, none⟩ : txscript.parsedOpcode)])).drop 1) =
        txscript.multiSigKeyPops pks ++
          [⟨txscript.smallIntByte (pks.length : Int), none⟩,
           (⟨txscript.OP_CHECKMULTISIG, none⟩ : txscript.parsedOpcode)] := rfl
    rw [hdrop, List.take_left' hkplen, List.all_eq_true]
    intro pop hpop
    simp only [txscript.multiSigKeyPops, List.mem_map] at hpop
    obtain ⟨k, hkmem, rfl⟩ := hpop
    simp only [txscript.popDataLen, Option.getD_some, decide_eq_true_eq]
    exact hk k hkmem

/-- Counterexample for C8: with no pubkeys and `n = 0`, `multisig`
does NOT fail (0 > 0 is false) yet the built script `OP_0 OP_0
OP_CHECKMULTISIG` has only three opcodes: it classifies as
`NonStandardTy`, not `MultiSigTy`, and `calc_multisig_stats` fails
with `StackUnderflow` instead of returning `(0, 0)`. -/
theorem claimC8_counterexample :
    txscript.MultiSigScript [] 0 = .ok [0x00, 0x00, 0xae]
    ∧ txscript.GetScriptClass [0x00, 0x00, 0xae] ≠ txscript.MultiSigTy
    ∧ txscript.GetScriptClass [0x00, 0x00, 0xae] = txscript.NonStandardTy
    ∧ txscript.CalcMultiSigStats [0x00, 0x00, 0xae] =
        .error .stackUnderflow := by
  decide

/-- C8, amended: `multisig(pks, n)` fails with `BadNumRequired`
whenever `n > len(pks)`; and when moreover `0 ≤ n ≤ 16` and
`1 ≤ len(pks) ≤ 16` and every pubkey serializes to 33 or 65 bytes —
the range in which both counts are emitted as small-int opcodes and
the pushes look like pubkeys — the built script classifies as
`MultiSigTy` and `calc_multisig_stats` on it returns
`(len(pks), n)`. -/
theorem claimC8_amended (pks : List txscript.AddressPubKey) (n : Int) :
    ((pks.length : Int) < n →
      txscript.MultiSigScript pks n = .error .badNumRequired)
    ∧ (0 ≤ n → n ≤ 16 → n ≤ (pks.length : Int) → 1 ≤ pks.length →
        pks.length ≤ 16 →
        (∀ k ∈ pks, k.scriptAddress.length = 33 ∨
          k.scriptAddress.length = 65) →
        ∃ s, txscript.MultiSigScript pks n = .ok s
          ∧ txscript.GetScriptClass s = txscript.MultiSigTy
          ∧ txscript.CalcMultiSigStats s = .ok (pks.length, n.toNat)) := by
  constructor
  · intro hlt
    unfold txscript.MultiSigScript
    rw [if_pos hlt]
  · intro h0 h16 hn hm1 hm16 hk
    have hparse := parse_multiSigScript pks n h0 h16 hm1 hm16 hk
    have hkplen : (txscript.multiSigKeyPops pks).length = pks.length := by
      simp [txscript.multiSigKeyPops]
    have hlen : (⟨txscript.smallIntByte n, none⟩ ::
        (txscript.multiSigKeyPops pks ++
          [⟨txscript.smallIntByte (pks.length : Int), none⟩,
           (⟨txscript.OP_CHECKMULTISIG, none⟩ :
             txscript.parsedOpcode)])).length = pks.length + 3 := by
      simp [hkplen]
    refine ⟨txscript.addInt64Push n ++ txscript.multiSigKeyPushes pks ++
      txscript.addInt64Push (pks.length : Int) ++
      [txscript.OP_CHECKMULTISIG], ?_, ?_, ?_⟩
    · unfold txscript.MultiSigScript
      rw [if_neg (by omega)]
    · unfold txscript.GetScriptClass
      rw [hparse]
      show txscript.typeOfScript _ = txscript.MultiSigTy
      unfold txscript.typeOfScript
      rw [isMultiSig_built pks n h0 h16 hm1 hm16 hk]
      rfl
    · unfold txscript.CalcMultiSigStats
      rw [hparse]
      show (if (⟨txscript.smallIntByte n, none⟩ ::
          (txscript.multiSigKeyPops pks ++
            [⟨txscript.smallIntByte (pks.length : Int), none⟩,
             (⟨txscript.OP_CHECKMULTISIG, none⟩ :
               txscript.parsedOpcode)])).length < 4 then
          Except.error txscript.ScriptError.stackUnderflow
        else _) = _
      rw [if_neg (by rw [hlen]; omega)]
      rw [hlen]
      obtain ⟨_, hasN⟩ := smallIntByte_small n h0 h16
      obtain ⟨_, hasM⟩ :=
        smallIntByte_small (pks.length : Int) (by omega) (by omega)
      have h1 : pks.length + 3 - 2 = pks.length + 1 := by omega
      rw [h1, List.getD_cons_succ,
        List.getD_append_right _ _ _ _ (by omega)]
      have h2 : pks.length - (txscript.multiSigKeyPops pks).length = 0 := by
        omega
      rw [h2, List.getD_cons_zero, List.getD_cons_zero, hasM, hasN]
      have h3 : ((pks.length : Int)).toNat = pks.length := by omega
      rw [h3]

/-- Witness for C8, the spec's scenario S1 shape: two 33-byte keys,
two required signatures — and the failing case `n = 3 > 2`. -/
theorem claimC8_witness :
    txscript.MultiSigScript [⟨List.replicate 33 2⟩, ⟨List.replicate 33 3⟩] 3 =
      .error .badNumRequired
    ∧ ∃ s, txscript.MultiSigScript
          [⟨List.replicate 33 2⟩, ⟨List.replicate 33 3⟩] 2 = .ok s
        ∧ txscript.GetScriptClass s = txscript.MultiSigTy
        ∧ txscript.CalcMultiSigStats s = .ok (2, 2) := by
  constructor
  · exact (claimC8_amended [⟨List.replicate 33 2⟩, ⟨List.replicate 33 3⟩] 3).1
      (by decide)
  · have h := (claimC8_amended
      [⟨List.replicate 33 2⟩, ⟨List.replicate 33 3⟩] 2).2
      (by decide) (by decide) (by decide) (by decide) (by decide) (by simp)
    exact h

/-! Association-list helper lemmas. -/

/-- Assigning a key absent from a Go map appends a fresh entry. -/
theorem alistInsert_fresh {β : Type} (m : List (memdb.Hash × β))
    (k : memdb.Hash) (v : β) (h : memdb.alistLookup m k = none) :
    memdb.alistInsert m k v = m ++ [(k, v)] := by
  unfold memdb.alistLookup at h
  unfold memdb.alistInsert
  cases hf : m.find? (fun e => e.1 == k) with
  | none => simp [hf]
  | some e => rw [hf] at h; cases h

/-- Lookup distributes over append: the left map wins. -/
theorem alistLookup_append {β : Type} (m1 m2 : List (memdb.Hash × β))
    (k : memdb.Hash) :
    memdb.alistLookup (m1 ++ m2) k =
      match memdb.alistLookup m1 k with
      | some v => some v
      | none => memdb.alistLookup m2 k := by
  unfold memdb.alistLookup
  rw [List.find?_append]
  cases h : m1.find? (fun e => e.1 == k) <;> rfl

/-- A successful `InsertBlock` appends the block, registers its hash
at the new height, and keeps the closed flag. -/
theorem insertBlock_ok_shape (db : memdb.MemDb) (b : memdb.MsgBlock)
    (h : Int) (db' : memdb.MemDb)
    (hok : memdb.InsertBlock db b = .ok (h, db')) :
    db'.blocks = db.blocks ++ [b]
    ∧ db'.blocksBySha =
        memdb.alistInsert db.blocksBySha b.blockHash (db.blocks.length : Int)
    ∧ db'.closed = db.closed := by
  unfold memdb.InsertBlock at hok
  split at hok
  · cases hok
  · split at hok
    · cases hok
    · simp only [] at hok
      split at hok
      · cases hok
      · split at hok
        · cases hok
        · simp only [Except.ok.injEq, Prod.mk.injEq] at hok
          obtain ⟨hh, hdb⟩ := hok
          subst hdb
          exact ⟨rfl, rfl, rfl⟩

/-- Source: `chainEntries` has one entry per block. -/
theorem chainEntries_length :
    ∀ (bs : List memdb.MsgBlock) (base : Nat),
    (memdb.chainEntries base bs).length = bs.length := by
  intro bs
  induction bs with
  | nil => intro base; rfl
  | cons b tl ih =>
    intro base
    simp [memdb.chainEntries, ih]

/-- Shape of a store built by a chain of successful inserts of blocks
with fresh, pairwise-distinct hashes: the block vector is the inserted
sequence and the hash map gains exactly one entry per block, at
consecutive heights. -/
theorem insertChain_shape :
    ∀ (bs : List memdb.MsgBlock) (db0 db : memdb.MemDb),
    memdb.insertChain db0 bs = some db →
    (∀ b ∈ bs, memdb.alistLookup db0.blocksBySha b.blockHash = none) →
    bs.Pairwise (fun x y => x.blockHash ≠ y.blockHash) →
    db.blocks = db0.blocks ++ bs
    ∧ db.closed = db0.closed
    ∧ db.blocksBySha =
        db0.blocksBySha ++ memdb.chainEntries db0.blocks.length bs := by
  intro bs
  induction bs with
  | nil =>
    intro db0 db hc _ _
    simp only [memdb.insertChain, Option.some.injEq] at hc
    subst hc
    simp [memdb.chainEntries]
  | cons b tl ih =>
    intro db0 db hc hfresh hpair
    rw [memdb.insertChain] at hc
    cases hI : memdb.InsertBlock db0 b with
    | error e => rw [hI] at hc; cases hc
    | ok r =>
      rw [hI] at hc
      obtain ⟨hb, hsha, hcl⟩ := insertBlock_ok_shape db0 b r.1 r.2 (by rw [hI])
      have hbfresh := hfresh b (List.mem_cons_self b tl)
      rw [alistInsert_fresh _ _ _ hbfresh] at hsha
      obtain ⟨hhead, hpair'⟩ := List.pairwise_cons.mp hpair
      have hfresh' : ∀ x ∈ tl,
          memdb.alistLookup r.2.blocksBySha x.blockHash = none := by
        intro x hx
        rw [hsha, alistLookup_append]
        rw [hfresh x (List.mem_cons_of_mem _ hx)]
        have hne : ¬ (b.blockHash == x.blockHash) = true := by
          simp only [beq_iff_eq]
          exact hhead x hx
        simp [memdb.alistLookup, List.find?, hne]
      obtain ⟨ihb, ihc, ihs⟩ := ih r.2 db hc hfresh' hpair'
      have hrlen : r.2.blocks.length = db0.blocks.length + 1 := by
        rw [hb]; simp
      refine ⟨?_, ?_, ?_⟩
      · rw [ihb, hb]; simp
      · rw [ihc, hcl]
      · rw [ihs, hsha, hrlen]
        simp [memdb.chainEntries]

/-- Source: `dropIter` truncates the vector by one per iteration. -/
theorem dropIter_blocks :
    ∀ (n : Nat) (blocks : List memdb.MsgBlock) (txns : memdb.TxnsMap)
      (res : List memdb.MsgBlock × memdb.TxnsMap),
    memdb.dropIter n blocks txns = some res →
    res.1 = blocks.take (blocks.length - n) := by
  intro n
  induction n with
  | zero =>
    intro blocks txns res h
    simp only [memdb.dropIter, Option.some.injEq] at h
    subst h
    simp
  | succ n ih =>
    intro blocks txns res h
    rw [memdb.dropIter] at h
    cases hl : blocks.getLast? with
    | none =>
      rw [hl] at h
      dsimp only at h
      simp only [Option.some.injEq] at h
      subst h
      have : blocks = [] := List.getLast?_eq_none_iff.mp hl
      subst this
      simp
    | some blk =>
      rw [hl] at h
      dsimp only at h
      cases hr : memdb.removeBlockTxs blk txns with
      | none => rw [hr] at h; cases h
      | some txns1 =>
        rw [hr] at h
        have hne : blocks ≠ [] := by
          intro hh
          rw [hh] at hl
          cases hl
        have hpos : 0 < blocks.length := List.length_pos.mpr hne
        rw [ih blocks.dropLast txns1 res h]
        rw [List.dropLast_eq_take, List.take_take, List.length_take]
        congr 1
        omega

/-- Dropping after a hash registered at height 0 truncates the block
vector to the genesis block and leaves `blocksBySha` untouched. -/
theorem dropAfter_height_zero (db db' : memdb.MemDb) (ghash : memdb.Hash)
    (hc : db.closed = false)
    (hlook : memdb.alistLookup db.blocksBySha ghash = some 0)
    (hdrop : memdb.DropAfterBlockBySha db ghash = .ok db') :
    db'.blocks = db.blocks.take 1 ∧ db'.blocksBySha = db.blocksBySha
    := by
  unfold memdb.DropAfterBlockBySha at hdrop
  rw [hc] at hdrop
  simp only [Bool.false_eq_true, if_false] at hdrop
  rw [hlook] at hdrop
  dsimp only at hdrop
  cases hdl : memdb.dropLoop 0 db.blocks db.txns with
  | none => rw [hdl] at hdrop; cases hdrop
  | some res =>
    rw [hdl] at hdrop
    simp only [Except.ok.injEq] at hdrop
    subst hdrop
    unfold memdb.dropLoop at hdl
    have hblocks := dropIter_blocks _ _ _ _ hdl
    refine ⟨?_, rfl⟩
    show res.1 = List.take 1 db.blocks
    rw [hblocks]
    rcases hbs : db.blocks with _ | ⟨x, xs⟩
    · simp
    · congr 1
      simp only [List.length_cons]
      omega

/-- Counterexample for C1: insert the genesis block and one child
block (both inserts succeed), then drop after the genesis hash.  The
result is NOT a fresh store — the block vector still holds the genesis
block — and the hash map still has both entries, so block-vector
length (1) differs from hash-map size (2): neither half of the claim
holds. -/
theorem claimC1_counterexample :
    memdb.insertChain memdb.newMemDb [vectors.gBlock, vectors.b1Block] =
      some vectors.c1db
    ∧ memdb.DropAfterBlockBySha vectors.c1db vectors.gBlock.blockHash =
        .ok vectors.c1dbDropped
    ∧ vectors.c1dbDropped ≠ memdb.newMemDb
    ∧ vectors.c1dbDropped.blocks ≠ []
    ∧ vectors.c1dbDropped.blocks.length = 1
    ∧ vectors.c1dbDropped.blocksBySha.length = 2 := by
  decide

/-- C1, amended: a successful insert of a fresh-hash block grows the
block vector and the hash map by one entry each (so inserts preserve
the length-equals-size invariant), but `drop_after_block_by_sha` of
the genesis hash only truncates the block vector to the genesis block
and leaves the hash map untouched: after any successful insert
sequence of blocks with pairwise-distinct hashes followed by the drop,
the store holds exactly the genesis block while the hash map keeps one
entry per inserted block — not a fresh store, and the invariant is
broken whenever more than one block was inserted. -/
theorem claimC1_amended :
    (∀ (db : memdb.MemDb) (b : memdb.MsgBlock) (h : Int)
        (db' : memdb.MemDb),
      memdb.InsertBlock db b = .ok (h, db') →
      memdb.alistLookup db.blocksBySha b.blockHash = none →
      db'.blocks.length = db.blocks.length + 1
      ∧ db'.blocksBySha.length = db.blocksBySha.length + 1)
    ∧ (∀ (g : memdb.MsgBlock) (tl : List memdb.MsgBlock)
        (db db' : memdb.MemDb),
      memdb.insertChain memdb.newMemDb (g :: tl) = some db →
      (g :: tl).Pairwise (fun x y => x.blockHash ≠ y.blockHash) →
      memdb.DropAfterBlockBySha db g.blockHash = .ok db' →
      db'.blocks = [g]
      ∧ db'.blocksBySha = db.blocksBySha
      ∧ db'.blocksBySha.length = tl.length + 1) := by
  constructor
  · intro db b h db' hok hfresh
    obtain ⟨hb, hsha, _⟩ := insertBlock_ok_shape db b h db' hok
    rw [alistInsert_fresh _ _ _ hfresh] at hsha
    rw [hb, hsha]
    simp
  · intro g tl db db' hchain hpair hdrop
    obtain ⟨hblocks, hclosed, hsha⟩ :=
      insertChain_shape (g :: tl) memdb.newMemDb db hchain
        (fun b _ => rfl) hpair
    have hlook : memdb.alistLookup db.blocksBySha g.blockHash = some 0 := by
      rw [hsha]
      show memdb.alistLookup
        ((g.blockHash, (0 : Int)) :: memdb.chainEntries 1 tl) g.blockHash =
        some 0
      simp [memdb.alistLookup, List.find?]
    obtain ⟨hb', hs'⟩ :=
      dropAfter_height_zero db db' g.blockHash
        (by rw [hclosed]; rfl) hlook hdrop
    refine ⟨?_, hs', ?_⟩
    · rw [hb', hblocks]
      rfl
    · rw [hs', hsha]
      simp [chainEntries_length, memdb.newMemDb]

/-- Witness for C1 at the concrete two-block run. -/
theorem claimC1_witness :
    (vectors.c1dbDropped.blocks = [vectors.gBlock]
      ∧ vectors.c1dbDropped.blocksBySha = vectors.c1db.blocksBySha
      ∧ vectors.c1dbDropped.blocksBySha.length = 2)
    ∧ (vectors.gdb.blocks.length = memdb.newMemDb.blocks.length + 1
      ∧ vectors.gdb.blocksBySha.length =
          memdb.newMemDb.blocksBySha.length + 1) := by
  constructor
  · exact claimC1_amended.2 vectors.gBlock [vectors.b1Block]
      vectors.c1db vectors.c1dbDropped (by decide) (by decide) (by decide)
  · exact claimC1_amended.1 memdb.newMemDb vectors.gBlock 0 vectors.gdb
      (by decide) (by decide)
